import Mathlib

/-!
Verification development for the incremental PostgreSQL → ClickHouse ETL job
(src/etl_job.py).  The pipeline state, the watermark store, the extraction
query, the batching loop and the orchestrator are shallowly embedded as
executable Lean functions; timestamps are abstracted as natural numbers and
the textual rendering produced by Python's str(datetime) is modelled by an
injective decimal encoding with an explicit parser (the PostgreSQL cast of a
text parameter to timestamp).
-/

namespace Etl

/-- Exceptions distinguished by their origin in the Python code. -/
inductive PyError where
  | typeError
  | valueError
  | connError
  | ddlError
  | queryError
  | loadError
  | attrError
  deriving DecidableEq, Repr

/-- Decimal digit of a single-digit natural number, as a character. -/
def digitChar (d : Nat) : Char :=
  Char.ofNat (48 + d % 10)

/-- Numeric value of a decimal digit character, if it is one. -/
def charDigit (c : Char) : Option Nat :=
  if 48 ≤ c.toNat ∧ c.toNat ≤ 57 then some (c.toNat - 48) else none

theorem charDigit_digitChar : ∀ d < 10, charDigit (digitChar d) = some d := by
  decide

/-- Big-endian decimal rendering of a natural number; fuel-based so the
kernel can evaluate it. -/
def encodeAux : Nat → Nat → List Char
  | 0, _ => []
  | fuel + 1, n =>
    if n < 10 then [digitChar n]
    else encodeAux fuel (n / 10) ++ [digitChar (n % 10)]

/-- Fold decimal digit characters into a number; none on any non-digit. -/
def decodeAux : Nat → List Char → Option Nat
  | acc, [] => some acc
  | acc, c :: cs =>
    match charDigit c with
    | some d => decodeAux (acc * 10 + d) cs
    | none => none

theorem decodeAux_append (l₁ l₂ : List Char) :
    ∀ acc, decodeAux acc (l₁ ++ l₂) =
      (decodeAux acc l₁).bind fun a => decodeAux a l₂ := by
  induction l₁ with
  | nil => intro acc; rfl
  | cons c cs ih =>
    intro acc
    simp only [List.cons_append, decodeAux]
    cases h : charDigit c with
    | none => rfl
    | some d => exact ih _

/-- Power of ten matching the number of digits encodeAux produces. -/
def npow10 : Nat → Nat → Nat
  | 0, _ => 1
  | fuel + 1, n => if n < 10 then 10 else npow10 fuel (n / 10) * 10

theorem decode_encode : ∀ fuel n, n < fuel → ∀ acc,
    decodeAux acc (encodeAux fuel n) = some (acc * npow10 fuel n + n) := by
  intro fuel
  induction fuel with
  | zero => intro n hn; omega
  | succ fuel ih =>
    intro n hn acc
    by_cases h : n < 10
    · simp only [encodeAux, npow10, if_pos h, decodeAux,
        charDigit_digitChar n h]
    · have h10 : 10 ≤ n := Nat.le_of_not_lt h
      have hdiv : n / 10 < fuel := by
        have h1 : n / 10 < n := Nat.div_lt_self (by omega) (by omega)
        omega
      simp only [encodeAux, npow10, if_neg h]
      rw [decodeAux_append]
      rw [ih (n / 10) hdiv acc]
      have hm : n % 10 < 10 := Nat.mod_lt _ (by omega)
      simp only [Option.bind_some, Option.some_bind, decodeAux,
        charDigit_digitChar (n % 10) hm]
      congr 1
      have hP : (acc * npow10 fuel (n / 10) + n / 10) * 10 + n % 10
          = acc * (npow10 fuel (n / 10) * 10) + (10 * (n / 10) + n % 10) := by
        ring
      rw [hP, Nat.div_add_mod]

/-- Model of Python str(datetime): an injective textual rendering of the
instant (here big-endian decimal of the abstract timestamp). -/
def dtStr (t : Nat) : String :=
  String.mk (encodeAux (t + 1) t)

/-- Model of the PostgreSQL cast of a text literal to a timestamp. -/
def dtParse (s : String) : Option Nat :=
  decodeAux 0 s.data

theorem dtParse_dtStr (t : Nat) : dtParse (dtStr t) = some t := by
  have h := decode_encode (t + 1) t (Nat.lt_succ_self t) 0
  simpa [dtParse, dtStr] using h

theorem encodeAux_ne_nil (fuel n : Nat) : encodeAux (fuel + 1) n ≠ [] := by
  simp only [encodeAux]
  split
  · simp
  · simp

theorem dtStr_ne_empty (t : Nat) : dtStr t ≠ "" := by
  simp only [dtStr]
  intro h
  exact encodeAux_ne_nil t t (congrArg String.data h)

/-- JSON documents as far as the watermark file can hold them. -/
inductive Json where
  | str (s : String)
  | null
  | obj (fields : List (String × Json))
  | arr (elems : List Json)

/-- Lookup in a JSON object, as Python dict.get. -/
def jsonLookup (key : String) : List (String × Json) → Option Json
  | [] => Option.none
  | (k, v) :: rest => if k = key then some v else jsonLookup key rest

/-- Python values the watermark variables can take at run time:
None, a str, a datetime (abstracted to Nat), or another decoded
JSON object. -/
inductive PyVal where
  | none
  | str (s : String)
  | dt (t : Nat)
  | other (j : Json)

/-- Python truthiness of such a value. -/
def pyTruthy : PyVal → Bool
  | .none => false
  | .str s => s ≠ ""
  | .dt _ => true
  | .other (Json.obj l) => !l.isEmpty
  | .other (Json.arr l) => !l.isEmpty
  | .other _ => true

/-- Python str() applied to such a value (line 228 serializes the
candidate watermark with str before saving). -/
def pyStr : PyVal → String
  | .none => "None"
  | .str s => s
  | .dt t => dtStr t
  | .other _ => "object"

/-- json.dump serialization of a Python value; a datetime is not JSON
serializable, so it yields no document (a TypeError in the source). -/
def pyToJson : PyVal → Option Json
  | .none => some Json.null
  | .str s => some (Json.str s)
  | .dt _ => Option.none
  | .other j => some j

/-- The Python value obtained from a JSON value read out of the file. -/
def jsonToPy : Option Json → PyVal
  | Option.none => .none
  | some (Json.str s) => .str s
  | some Json.null => .none
  | some j => .other j

/-- The Python comparison batch_max_ts > current_watermark at line 212,
where batch_max_ts is a datetime: comparing a datetime with a str (or
any non-datetime) raises TypeError. -/
def pyGtDt (t : Nat) : PyVal → Except PyError Bool
  | .dt u => .ok (decide (u < t))
  | _ => .error .typeError

/-- What PostgreSQL does with the bound since-parameter of the query:
a datetime passes through, a str is cast to a timestamp (a failing cast
makes the query fail), anything else fails the query. -/
def sqlTs : PyVal → Except PyError Nat
  | .dt t => .ok t
  | .str s =>
    match dtParse s with
    | some t => .ok t
    | Option.none => .error .queryError
  | _ => .error .queryError

/-- States the persisted watermark file can be in. -/
inductive FileContent where
  | malformed
  | json (j : Json)

/-- The watermark file: absent, unreadable (open or read raises IOError),
or readable with some content. -/
inductive FileState where
  | absent
  | unreadable
  | content (c : FileContent)

/-- Model of load_last_watermark (src/etl_job.py lines 152-165): returns
the loaded value together with whether a warning was logged; raises only
when the file holds valid JSON that is not an object (dict.get on a
non-dict raises AttributeError, which the function does not catch). -/
def load_last_watermark : FileState → Except PyError (PyVal × Bool)
  | .absent => .ok (.none, false)
  | .unreadable => .ok (.none, true)
  | .content .malformed => .ok (.none, true)
  | .content (.json j) =>
    match j with
    | Json.obj fields => .ok (jsonToPy (jsonLookup "last_updated_at" fields), false)
    | _ => .error .attrError

/-- Model of save_current_watermark (src/etl_job.py lines 167-176):
an IOError on the write is caught and only logged (the Bool records the
error log); otherwise the file is overwritten with the one-key JSON
object; json.dump of a non-serializable value raises TypeError. -/
def save_current_watermark (writeFails : Bool) (v : PyVal) (fs : FileState) :
    Except PyError (FileState × Bool) :=
  if writeFails then .ok (fs, true)
  else
    match pyToJson v with
    | some j => .ok (.content (.json (Json.obj [("last_updated_at", j)])), false)
    | Option.none => .error .typeError

/-- The canonical persisted form of a watermark text. -/
def savedFile (s : String) : FileState :=
  .content (.json (Json.obj [("last_updated_at", Json.str s)]))

/-- A row of retail_transaction as psycopg2 yields it; updated_at and
deleted_at are nullable at the source. -/
structure Row where
  id : Nat
  customer_id : Nat
  last_status : String
  pos_origin : String
  pos_destination : String
  created_at : Nat
  updated_at : Option Nat
  deleted_at : Option Nat
  deriving DecidableEq, Repr

set_option linter.unnecessarySeqFocus false

/-- SQL ORDER BY updated_at ascending (nulls last, the ASC default). -/
def updLe (a b : Row) : Prop :=
  match a.updated_at, b.updated_at with
  | some x, some y => x ≤ y
  | some _, Option.none => True
  | Option.none, some _ => False
  | Option.none, Option.none => True

instance : DecidableRel updLe := fun a b => by
  unfold updLe
  cases a.updated_at <;> cases b.updated_at <;> infer_instance

instance : IsTotal Row updLe where
  total a b := by
    unfold updLe
    cases a.updated_at <;> cases b.updated_at <;> simp <;> omega

instance : IsTrans Row updLe where
  trans a b c := by
    unfold updLe
    cases a.updated_at <;> cases b.updated_at <;> cases c.updated_at <;>
      simp <;> omega

/-- The WHERE clause of fetch_postgres_data (lines 98-114): only
tombstoned rows in both branches; with a watermark additionally
updated_at strictly greater (a NULL updated_at never compares greater). -/
def rowSelected (since : Option Nat) (r : Row) : Bool :=
  r.deleted_at.isSome &&
    match since with
    | Option.none => true
    | some w =>
      match r.updated_at with
      | some t => decide (w < t)
      | Option.none => false

/-- The result set of the extraction query: WHERE filter, then ORDER BY
updated_at ascending (a stable sort, as the server returns it). -/
def query (rows : List Row) (since : Option Nat) : List Row :=
  List.insertionSort updLe (rows.filter (rowSelected since))

/-- Default batch size (src/etl_job.py line 22). -/
def DEFAULT_BATCH_SIZE : Nat := 5000

/-- The cursor.fetchmany paging loop of fetch_postgres_data (lines
116-120), fuelled by the number of remaining rows. -/
def pagesGo (bsize : Nat) : Nat → List Row → List (List Row)
  | _, [] => []
  | 0, _ => []
  | fuel + 1, rs => rs.take bsize :: pagesGo bsize fuel (rs.drop bsize)

/-- The sequence of row pages the generator yields; fetchmany with size 0
returns no rows, ending the loop at once. -/
def pages (bsize : Nat) (rs : List Row) : List (List Row) :=
  if bsize = 0 then [] else pagesGo bsize rs.length rs

/-- Model of fetch_postgres_data (lines 90-122): the truthiness test on
last_watermark picks the branch; a truthy watermark is bound as the SQL
parameter (cast to a timestamp by the server). -/
def fetch_postgres_data (rows : List Row) (lastW : PyVal) (bsize : Nat) :
    Except PyError (List (List Row)) :=
  if pyTruthy lastW then
    match sqlTs lastW with
    | .ok w => .ok (pages bsize (query rows (some w)))
    | .error e => .error e
  else
    .ok (pages bsize (query rows Option.none))

/-- Model of insert_to_clickhouse (lines 124-150): an empty batch only
logs a warning and returns (ok false = no client call); otherwise the
client insert either raises or succeeds (ok true = batch written). -/
def insert_to_clickhouse (clientFails : Bool) (batch : List Row) :
    Except PyError Bool :=
  if batch.isEmpty then .ok false
  else if clientFails then .error .loadError
  else .ok true

/-- One run's environment: source table contents, watermark file, and
the fallible external effects. -/
structure Env where
  rows : List Row
  fs : FileState
  pgConnOk : Bool
  chConnOk : Bool
  ddlOk : Bool
  insertFails : Nat → Bool
  saveFails : Bool

/-- The mutable locals of the batching loop in execute_etl_pipeline
(lines 203-219), plus bookkeeping of delivered batches and client
insert attempts. -/
structure LoopState where
  buffer : List Row
  total : Nat
  curW : PyVal
  insertIdx : Nat
  sink : List (List Row)
  insertFailed : Bool

/-- The computation of batch_max_ts at line 211: max over the truthy
updated_at values of the fetched page; max of an empty sequence raises
ValueError. -/
def batchMax (chunk : List Row) : Except PyError Nat :=
  match chunk.filterMap (fun r => r.updated_at) with
  | [] => .error .valueError
  | t :: ts => .ok (ts.foldl Nat.max t)

/-- The candidate-watermark update of lines 212-213: the or short-circuits
on a falsy current watermark; otherwise the datetime is compared against
the current value (raising TypeError on a non-datetime). -/
def updateWatermark (bmax : Nat) (curW : PyVal) : Except PyError PyVal :=
  if pyTruthy curW = false then .ok (.dt bmax)
  else
    match pyGtDt bmax curW with
    | .ok b => .ok (if b then .dt bmax else curW)
    | .error e => .error e

/-- The for-loop over fetched pages (lines 207-219): extend the buffer,
update the candidate watermark, flush the buffer through the loader when
it reaches the threshold.  Returns the final loop state and the raised
exception, if any. -/
def loopGo (env : Env) (bsize : Nat) :
    List (List Row) → LoopState → LoopState × Option PyError
  | [], st => (st, Option.none)
  | chunk :: rest, st =>
    let buffer := st.buffer ++ chunk
    match batchMax chunk with
    | .error e => ({ st with buffer := buffer }, some e)
    | .ok bmax =>
      match updateWatermark bmax st.curW with
      | .error e => ({ st with buffer := buffer }, some e)
      | .ok curW =>
        if bsize ≤ buffer.length then
          match insert_to_clickhouse (env.insertFails st.insertIdx) buffer with
          | .error e =>
            ({ st with
                buffer := buffer, curW := curW,
                insertIdx := st.insertIdx + 1,
                insertFailed := true }, some e)
          | .ok wrote =>
            if wrote then
              loopGo env bsize rest
                { buffer := [], total := st.total + buffer.length,
                  curW := curW, insertIdx := st.insertIdx + 1,
                  sink := st.sink ++ [buffer],
                  insertFailed := st.insertFailed }
            else
              loopGo env bsize rest
                { st with
                  buffer := [],
                  total := st.total + buffer.length, curW := curW }
        else
          loopGo env bsize rest { st with buffer := buffer, curW := curW }

/-- What the try-block of execute_etl_pipeline computes before the
watermark save: the raised exception if any, the batches delivered to the
sink, the processed-row count, the final candidate watermark, and which
resources were acquired. -/
structure BodyOut where
  err : Option PyError
  sink : List (List Row)
  total : Nat
  finalW : PyVal
  loadWarned : Bool
  pgOpened : Bool
  chCreated : Bool
  insertFailed : Bool

/-- Lines 188-224 of execute_etl_pipeline: load the watermark, open the
connections, set up the table, stream the pages through the batching
loop, and flush the remainder buffer. -/
def runBody (env : Env) (bsize : Nat) : BodyOut :=
  match load_last_watermark env.fs with
  | .error e => ⟨some e, [], 0, .none, false, false, false, false⟩
  | .ok (lastW, warned) =>
    if env.pgConnOk = false then
      ⟨some .connError, [], 0, lastW, warned, false, false, false⟩
    else if env.chConnOk = false then
      ⟨some .connError, [], 0, lastW, warned, true, false, false⟩
    else if env.ddlOk = false then
      ⟨some .ddlError, [], 0, lastW, warned, true, true, false⟩
    else
      match fetch_postgres_data env.rows lastW bsize with
      | .error e => ⟨some e, [], 0, lastW, warned, true, true, false⟩
      | .ok chunks =>
        match loopGo env bsize chunks ⟨[], 0, lastW, 0, [], false⟩ with
        | (st, some e) =>
          ⟨some e, st.sink, st.total, st.curW, warned, true, true,
            st.insertFailed⟩
        | (st, Option.none) =>
          if st.buffer.isEmpty then
            ⟨Option.none, st.sink, st.total, st.curW, warned, true, true,
              st.insertFailed⟩
          else
            match insert_to_clickhouse (env.insertFails st.insertIdx)
                st.buffer with
            | .error _ =>
              ⟨some .loadError, st.sink, st.total, st.curW, warned,
                true, true, true⟩
            | .ok _ =>
              ⟨Option.none, st.sink ++ [st.buffer],
                st.total + st.buffer.length, st.curW, warned, true, true,
                st.insertFailed⟩

/-- The observable outcome of one run. -/
structure RunResult where
  outcome : Except PyError Unit
  sink : List (List Row)
  total : Nat
  fs : FileState
  saveCalls : Nat
  saveLoggedError : Bool
  loadWarned : Bool
  pgOpened : Bool
  pgClosed : Bool
  chCreated : Bool
  chClosed : Bool
  insertFailed : Bool

/-- Lines 178-244 of execute_etl_pipeline: run the body; on success save
the candidate watermark when it is truthy (serialized with str); the
except clause re-raises, and the finally clause closes the PostgreSQL
connection when it was opened — nothing ever closes the ClickHouse
client.  pipelineTry is the try/except part (the resource-release fields
are placeholders); pipelineCore applies the finally clause. -/
def pipelineTry (env : Env) (bsize : Nat) : RunResult :=
  let b := runBody env bsize
  match b.err with
  | some e =>
    ⟨.error e, b.sink, b.total, env.fs, 0, false, b.loadWarned,
      b.pgOpened, b.pgOpened, b.chCreated, false, b.insertFailed⟩
  | Option.none =>
    if pyTruthy b.finalW then
      match save_current_watermark env.saveFails (.str (pyStr b.finalW))
          env.fs with
      | .ok (fs2, logged) =>
        ⟨.ok (), b.sink, b.total, fs2, 1, logged, b.loadWarned,
          b.pgOpened, b.pgOpened, b.chCreated, false, b.insertFailed⟩
      | .error e =>
        ⟨.error e, b.sink, b.total, env.fs, 1, false, b.loadWarned,
          b.pgOpened, b.pgOpened, b.chCreated, false, b.insertFailed⟩
    else
      ⟨.ok (), b.sink, b.total, env.fs, 0, false, b.loadWarned,
        b.pgOpened, b.pgOpened, b.chCreated, false, b.insertFailed⟩

/-- The finally clause (lines 237-244): the PostgreSQL connection is
closed exactly when it was opened; no exit path closes the ClickHouse
client. -/
def pipelineCore (env : Env) (bsize : Nat) : RunResult :=
  let r := pipelineTry env bsize
  { r with pgClosed := r.pgOpened, chClosed := false }

/-- The entry point, with the module-level DEFAULT_BATCH_SIZE. -/
def execute_etl_pipeline (env : Env) : RunResult :=
  pipelineCore env DEFAULT_BATCH_SIZE

/-! ### General lemmas about the embedded definitions -/

theorem pyTruthy_dtStr (w : Nat) : pyTruthy (.str (dtStr w)) = true := by
  simp [pyTruthy, dtStr_ne_empty w]

theorem sqlTs_dtStr (w : Nat) : sqlTs (.str (dtStr w)) = .ok w := by
  simp [sqlTs, dtParse_dtStr]

theorem load_savedFile (s : String) :
    load_last_watermark (savedFile s) = .ok (.str s, false) := rfl

theorem save_str_never_raises (fails : Bool) (s : String) (fs : FileState) :
    save_current_watermark fails (.str s) fs =
      if fails then .ok (fs, true) else .ok (savedFile s, false) := by
  unfold save_current_watermark savedFile pyToJson
  split <;> rfl

/-- Membership in the query result, both branches. -/
theorem mem_query (rows : List Row) (since : Option Nat) (r : Row) :
    r ∈ query rows since ↔ r ∈ rows ∧ rowSelected since r = true := by
  unfold query
  rw [(List.perm_insertionSort updLe _).mem_iff, List.mem_filter]

theorem rowSelected_none (r : Row) :
    rowSelected Option.none r = r.deleted_at.isSome := by
  simp [rowSelected]

theorem rowSelected_some (w : Nat) (r : Row) :
    rowSelected (some w) r = true ↔
      r.deleted_at.isSome = true ∧ ∃ t, r.updated_at = some t ∧ w < t := by
  unfold rowSelected
  cases r.updated_at with
  | none => simp
  | some t => simp

theorem query_sorted (rows : List Row) (since : Option Nat) :
    List.Sorted updLe (query rows since) :=
  List.sorted_insertionSort updLe _

/-- Rows selected by the since-branch always carry an updated_at value. -/
theorem mem_query_some_updated (rows : List Row) (w : Nat) (r : Row)
    (h : r ∈ query rows (some w)) : ∃ t, r.updated_at = some t ∧ w < t :=
  ((rowSelected_some w r).mp ((mem_query rows (some w) r).mp h).2).2

/-! ### C2 -/

/-- C2: fetch_postgres_data selects only tombstoned rows in both branches,
ordered ascending by updated_at; with no watermark it selects the full
tombstoned set, with a watermark only rows whose updated_at is strictly
greater. -/
theorem c2_fetch_selects_tombstones_ordered (rows : List Row) :
    (∀ r, r ∈ query rows Option.none ↔
        r ∈ rows ∧ r.deleted_at.isSome = true)
    ∧ (∀ w r, r ∈ query rows (some w) ↔
        r ∈ rows ∧ r.deleted_at.isSome = true ∧
          ∃ t, r.updated_at = some t ∧ w < t)
    ∧ (∀ since, List.Sorted updLe (query rows since))
    ∧ (∀ bsize, fetch_postgres_data rows PyVal.none bsize =
        .ok (pages bsize (query rows Option.none)))
    ∧ (∀ w bsize, fetch_postgres_data rows (.str (dtStr w)) bsize =
        .ok (pages bsize (query rows (some w)))) := by
  refine ⟨?_, ?_, ?_, ?_, ?_⟩
  · intro r
    rw [mem_query, rowSelected_none]
  · intro w r
    rw [mem_query, rowSelected_some]
  · intro since
    exact query_sorted rows since
  · intro bsize
    rfl
  · intro w bsize
    simp [fetch_postgres_data, pyTruthy_dtStr, sqlTs_dtStr]

/-- C2 witness at a concrete tombstoned row and watermark. -/
theorem c2_witness :
    let r : Row := ⟨1, 1, "s", "p", "q", 0, some 5, some 5⟩
    r ∈ query [r] (some 3) ∧ ¬ r ∈ query [r] (some 5) := by
  intro r
  constructor
  · exact ((c2_fetch_selects_tombstones_ordered [r]).2.1 3 r).mpr
      ⟨by decide, by decide, 5, rfl, by decide⟩
  · intro h
    have := ((c2_fetch_selects_tombstones_ordered [r]).2.1 5 r).mp h
    obtain ⟨-, -, t, ht, hlt⟩ := this
    cases ht
    omega

/-! ### C5 -/

/-- C5: the persisted watermark representation round-trips exactly: saving
the textual timestamp the pipeline serializes (str of the candidate) and
loading it back yields the very same text, which denotes the same instant
and is usable as the strictly-greater since-parameter of the next run's
source query. -/
theorem c5_watermark_roundtrip (w : Nat) (fs : FileState) :
    save_current_watermark false (.str (dtStr w)) fs =
      .ok (savedFile (dtStr w), false)
    ∧ load_last_watermark (savedFile (dtStr w)) = .ok (.str (dtStr w), false)
    ∧ dtParse (dtStr w) = some w
    ∧ sqlTs (.str (dtStr w)) = .ok w := by
  refine ⟨?_, load_savedFile _, dtParse_dtStr w, sqlTs_dtStr w⟩
  rw [save_str_never_raises]
  rfl

/-! ### C8 (corrected) -/

/-- C8 counterexample: for the absent watermark file the loader returns
None silently — no anomaly is logged, contrary to the claim that every
one of the three states logs the anomaly. -/
theorem c8_counterexample_absent_not_logged :
    load_last_watermark .absent = .ok (.none, false) := rfl

/-- C8 amended: for a missing, unreadable, or unparseable watermark file,
load_last_watermark returns None rather than raising; the anomaly is
logged for the unreadable and unparseable states, while a missing file is
silent (absence is the valid initial state); the run then proceeds as an
initial full load. -/
theorem c8_load_tolerates_bad_file :
    load_last_watermark .absent = .ok (.none, false)
    ∧ load_last_watermark .unreadable = .ok (.none, true)
    ∧ load_last_watermark (.content .malformed) = .ok (.none, true)
    ∧ (∀ rows bsize, fetch_postgres_data rows PyVal.none bsize =
        .ok (pages bsize (query rows Option.none))) :=
  ⟨rfl, rfl, rfl, fun _ _ => rfl⟩

/-! ### C10 (corrected) -/

/-- A trivial successful run for C10. -/
def c10Env : Env := ⟨[], .absent, true, true, true, fun _ => false, false⟩

/-- C10 counterexample: in a successful run the ClickHouse client is
acquired but never closed/released — only the PostgreSQL connection is
cleaned up, contrary to the claim that both resources are released. -/
theorem c10_counterexample_ch_client_not_released :
    (execute_etl_pipeline c10Env).chCreated = true
    ∧ (execute_etl_pipeline c10Env).chClosed = false := ⟨rfl, rfl⟩

/-- C10 amended: on every exit path the PostgreSQL connection is closed
exactly when it was acquired, but the ClickHouse client is never
explicitly closed/released by the run. -/
theorem c10_only_pg_connection_released (env : Env) :
    (execute_etl_pipeline env).pgClosed = (execute_etl_pipeline env).pgOpened
    ∧ (execute_etl_pipeline env).chClosed = false :=
  ⟨rfl, rfl⟩

/-! ### Structural lemmas about the orchestrator -/

theorem insert_error_eq (f : Bool) (b : List Row) (e : PyError)
    (h : insert_to_clickhouse f b = .error e) : e = .loadError := by
  unfold insert_to_clickhouse at h
  split at h
  · cases h
  · split at h
    · cases h
      rfl
    · cases h

theorem pagesGo_nil (b f : Nat) : pagesGo b f [] = [] := by
  cases f <;> rfl

theorem pages_nil (b : Nat) : pages b [] = [] := by
  unfold pages
  split
  · rfl
  · exact pagesGo_nil b 0

theorem pagesGo_cons (b f : Nat) (x : Row) (xs : List Row) :
    pagesGo b (f + 1) (x :: xs) =
      (x :: xs).take b :: pagesGo b f ((x :: xs).drop b) := rfl

theorem pages_cons (b : Nat) (q : List Row) (hb : b ≠ 0) (hq : q ≠ []) :
    ∃ cs, pages b q = q.take b :: cs := by
  unfold pages
  rw [if_neg hb]
  match q, hq with
  | x :: xs, _ => exact ⟨_, rfl⟩

theorem batchMax_ok_of_mem (c : List Row) (r : Row) (t : Nat)
    (hr : r ∈ c) (ht : r.updated_at = some t) : ∃ m, batchMax c = .ok m := by
  unfold batchMax
  cases hfm : c.filterMap (fun r => r.updated_at) with
  | cons m ms => exact ⟨_, rfl⟩
  | nil =>
    rw [List.filterMap_eq_nil_iff] at hfm
    rw [hfm r hr] at ht
    cases ht

theorem fetch_none (rows : List Row) (bsize : Nat) :
    fetch_postgres_data rows PyVal.none bsize =
      .ok (pages bsize (query rows Option.none)) := rfl

theorem fetch_dtStr (rows : List Row) (w bsize : Nat) :
    fetch_postgres_data rows (.str (dtStr w)) bsize =
      .ok (pages bsize (query rows (some w))) := by
  simp [fetch_postgres_data, pyTruthy_dtStr, sqlTs_dtStr]

/-- Loop equation: the batch-max computation raises. -/
theorem loopGo_cons_bmErr (env : Env) (bsize : Nat) (c : List Row)
    (rest : List (List Row)) (st : LoopState) (e : PyError)
    (h : batchMax c = .error e) :
    loopGo env bsize (c :: rest) st =
      ({ st with buffer := st.buffer ++ c }, some e) := by
  simp only [loopGo, h]

/-- Loop equation: the candidate-watermark comparison raises. -/
theorem loopGo_cons_upErr (env : Env) (bsize : Nat) (c : List Row)
    (rest : List (List Row)) (st : LoopState) (bmax : Nat) (e : PyError)
    (h1 : batchMax c = .ok bmax)
    (h2 : updateWatermark bmax st.curW = .error e) :
    loopGo env bsize (c :: rest) st =
      ({ st with buffer := st.buffer ++ c }, some e) := by
  simp only [loopGo, h1, h2]

/-- Loop equation: the flush insert raises. -/
theorem loopGo_cons_insErr (env : Env) (bsize : Nat) (c : List Row)
    (rest : List (List Row)) (st : LoopState) (bmax : Nat) (curW : PyVal)
    (e : PyError)
    (h1 : batchMax c = .ok bmax)
    (h2 : updateWatermark bmax st.curW = .ok curW)
    (h3 : bsize ≤ (st.buffer ++ c).length)
    (h4 : insert_to_clickhouse (env.insertFails st.insertIdx)
      (st.buffer ++ c) = .error e) :
    loopGo env bsize (c :: rest) st =
      ({ st with
          buffer := st.buffer ++ c, curW := curW,
          insertIdx := st.insertIdx + 1, insertFailed := true }, some e) := by
  simp only [loopGo, h1, h2, if_pos h3, h4]

/-- Loop equation: a successful flush. -/
theorem loopGo_cons_flush (env : Env) (bsize : Nat) (c : List Row)
    (rest : List (List Row)) (st : LoopState) (bmax : Nat) (curW : PyVal)
    (h1 : batchMax c = .ok bmax)
    (h2 : updateWatermark bmax st.curW = .ok curW)
    (h3 : bsize ≤ (st.buffer ++ c).length)
    (h4 : insert_to_clickhouse (env.insertFails st.insertIdx)
      (st.buffer ++ c) = .ok true) :
    loopGo env bsize (c :: rest) st =
      loopGo env bsize rest
        ⟨[], st.total + (st.buffer ++ c).length, curW, st.insertIdx + 1,
          st.sink ++ [st.buffer ++ c], st.insertFailed⟩ := by
  simp only [loopGo, h1, h2, if_pos h3, h4, if_true]

/-- Loop equation: an empty-buffer flush is a warned no-op. -/
theorem loopGo_cons_flushEmpty (env : Env) (bsize : Nat) (c : List Row)
    (rest : List (List Row)) (st : LoopState) (bmax : Nat) (curW : PyVal)
    (h1 : batchMax c = .ok bmax)
    (h2 : updateWatermark bmax st.curW = .ok curW)
    (h3 : bsize ≤ (st.buffer ++ c).length)
    (h4 : insert_to_clickhouse (env.insertFails st.insertIdx)
      (st.buffer ++ c) = .ok false) :
    loopGo env bsize (c :: rest) st =
      loopGo env bsize rest
        ⟨[], st.total + (st.buffer ++ c).length, curW, st.insertIdx,
          st.sink, st.insertFailed⟩ := by
  simp only [loopGo, h1, h2, if_pos h3, h4, Bool.false_eq_true, if_false]

/-- Loop equation: the buffer is still below the threshold. -/
theorem loopGo_cons_keep (env : Env) (bsize : Nat) (c : List Row)
    (rest : List (List Row)) (st : LoopState) (bmax : Nat) (curW : PyVal)
    (h1 : batchMax c = .ok bmax)
    (h2 : updateWatermark bmax st.curW = .ok curW)
    (h3 : ¬ bsize ≤ (st.buffer ++ c).length) :
    loopGo env bsize (c :: rest) st =
      loopGo env bsize rest
        { st with buffer := st.buffer ++ c, curW := curW } := by
  simp only [loopGo, h1, h2, if_neg h3]

/-- How the loop propagates the insert-failure flag: an exception-free
loop leaves it as it was on entry, and a newly set flag means the loop
raised the load error. -/
theorem loopGo_flag (env : Env) (bsize : Nat) :
    ∀ cs st,
      ((loopGo env bsize cs st).2 = Option.none →
        (loopGo env bsize cs st).1.insertFailed = st.insertFailed)
      ∧ ((loopGo env bsize cs st).1.insertFailed = true →
        st.insertFailed = true ∨
          (loopGo env bsize cs st).2 = some PyError.loadError) := by
  intro cs
  induction cs with
  | nil => exact fun st => ⟨fun _ => rfl, fun h => Or.inl h⟩
  | cons c rest ih =>
    intro st
    cases hbm : batchMax c with
    | error e =>
      rw [loopGo_cons_bmErr env bsize c rest st e hbm]
      exact ⟨fun h => (nomatch h), fun h => Or.inl h⟩
    | ok bmax =>
      cases hup : updateWatermark bmax st.curW with
      | error e =>
        rw [loopGo_cons_upErr env bsize c rest st bmax e hbm hup]
        exact ⟨fun h => (nomatch h), fun h => Or.inl h⟩
      | ok curW =>
        by_cases hlen : bsize ≤ (st.buffer ++ c).length
        · cases hins : insert_to_clickhouse (env.insertFails st.insertIdx)
              (st.buffer ++ c) with
          | error e =>
            rw [loopGo_cons_insErr env bsize c rest st bmax curW e
              hbm hup hlen hins]
            refine ⟨fun h => (nomatch h), fun _ => Or.inr ?_⟩
            exact congrArg some (insert_error_eq _ _ _ hins)
          | ok wrote =>
            cases wrote with
            | true =>
              rw [loopGo_cons_flush env bsize c rest st bmax curW
                hbm hup hlen hins]
              exact ⟨(ih _).1, fun h => (ih _).2 h⟩
            | false =>
              rw [loopGo_cons_flushEmpty env bsize c rest st bmax curW
                hbm hup hlen hins]
              exact ⟨(ih _).1, fun h => (ih _).2 h⟩
        · rw [loopGo_cons_keep env bsize c rest st bmax curW hbm hup hlen]
          exact ⟨(ih _).1, fun h => (ih _).2 h⟩

/-- The shape of the body when the watermark loads, the connections come
up, the table DDL succeeds and the query runs. -/
theorem runBody_main (env : Env) (bsize : Nat) (lw : PyVal) (warned : Bool)
    (chunks : List (List Row))
    (hpg : env.pgConnOk = true) (hch : env.chConnOk = true)
    (hddl : env.ddlOk = true)
    (hload : load_last_watermark env.fs = .ok (lw, warned))
    (hfetch : fetch_postgres_data env.rows lw bsize = .ok chunks) :
    runBody env bsize =
      match loopGo env bsize chunks ⟨[], 0, lw, 0, [], false⟩ with
      | (st, some e) =>
        ⟨some e, st.sink, st.total, st.curW, warned, true, true,
          st.insertFailed⟩
      | (st, Option.none) =>
        if st.buffer.isEmpty then
          ⟨Option.none, st.sink, st.total, st.curW, warned, true, true,
            st.insertFailed⟩
        else
          match insert_to_clickhouse (env.insertFails st.insertIdx)
              st.buffer with
          | .error _ =>
            ⟨some .loadError, st.sink, st.total, st.curW, warned,
              true, true, true⟩
          | .ok _ =>
            ⟨Option.none, st.sink ++ [st.buffer],
              st.total + st.buffer.length, st.curW, warned, true, true,
              st.insertFailed⟩ := by
  unfold runBody
  rw [hload]
  simp [hpg, hch, hddl, hfetch]

/-- A recorded insert failure implies the body raised the load error. -/
theorem runBody_insertFailed (env : Env) (bsize : Nat)
    (h : (runBody env bsize).insertFailed = true) :
    (runBody env bsize).err = some PyError.loadError := by
  unfold runBody at h ⊢
  cases hload : load_last_watermark env.fs with
  | error e => simp only [hload] at h; cases h
  | ok p =>
    obtain ⟨lw, warned⟩ := p
    simp only [hload] at h ⊢
    by_cases hpg : env.pgConnOk = false
    · simp only [if_pos hpg] at h; cases h
    · simp only [if_neg hpg] at h ⊢
      by_cases hch : env.chConnOk = false
      · simp only [if_pos hch] at h; cases h
      · simp only [if_neg hch] at h ⊢
        by_cases hddl : env.ddlOk = false
        · simp only [if_pos hddl] at h; cases h
        · simp only [if_neg hddl] at h ⊢
          cases hf : fetch_postgres_data env.rows lw bsize with
          | error e => simp only [hf] at h; cases h
          | ok chunks =>
            simp only [hf] at h ⊢
            rcases hl : loopGo env bsize chunks
                ⟨[], 0, lw, 0, [], false⟩ with ⟨st, err⟩
            have hflag := loopGo_flag env bsize chunks
              ⟨[], 0, lw, 0, [], false⟩
            rw [hl] at hflag
            simp only [hl] at h ⊢
            cases err with
            | some e =>
              simp only [] at h ⊢
              rcases hflag.2 h with h2 | h2
              · cases h2
              · simp only [Option.some_inj] at h2
                rw [h2]
            | none =>
              by_cases hbuf : st.buffer.isEmpty
              · simp only [if_pos hbuf] at h
                rcases hflag.2 h with h2 | h2
                · cases h2
                · cases h2
              · simp only [if_neg hbuf] at h ⊢
                cases hins : insert_to_clickhouse
                    (env.insertFails st.insertIdx) st.buffer with
                | error e => simp only [hins] at h ⊢
                | ok wrote =>
                  simp only [hins] at h
                  rcases hflag.2 h with h2 | h2
                  · cases h2
                  · cases h2

theorem pipeline_err (env : Env) (bsize : Nat) (e : PyError)
    (h : (runBody env bsize).err = some e) :
    pipelineCore env bsize =
      ⟨.error e, (runBody env bsize).sink, (runBody env bsize).total,
        env.fs, 0, false, (runBody env bsize).loadWarned,
        (runBody env bsize).pgOpened, (runBody env bsize).pgOpened,
        (runBody env bsize).chCreated, false,
        (runBody env bsize).insertFailed⟩ := by
  simp only [pipelineCore, pipelineTry, h]

/-- The run result when the body succeeds but the final candidate
watermark is falsy: no save happens. -/
theorem pipeline_ok_falsy (env : Env) (bsize : Nat)
    (h : (runBody env bsize).err = Option.none)
    (ht : pyTruthy (runBody env bsize).finalW = false) :
    pipelineCore env bsize =
      ⟨.ok (), (runBody env bsize).sink, (runBody env bsize).total,
        env.fs, 0, false, (runBody env bsize).loadWarned,
        (runBody env bsize).pgOpened, (runBody env bsize).pgOpened,
        (runBody env bsize).chCreated, false,
        (runBody env bsize).insertFailed⟩ := by
  simp only [pipelineCore, pipelineTry, h, ht]
  rfl

/-- The run result when the body succeeds and the final candidate
watermark is truthy: exactly one save, which the swallowed IOError cannot
turn into a failure. -/
theorem pipeline_ok_truthy (env : Env) (bsize : Nat)
    (h : (runBody env bsize).err = Option.none)
    (ht : pyTruthy (runBody env bsize).finalW = true) :
    pipelineCore env bsize =
      ⟨.ok (), (runBody env bsize).sink, (runBody env bsize).total,
        (if env.saveFails then env.fs
          else savedFile (pyStr (runBody env bsize).finalW)),
        1, env.saveFails, (runBody env bsize).loadWarned,
        (runBody env bsize).pgOpened, (runBody env bsize).pgOpened,
        (runBody env bsize).chCreated, false,
        (runBody env bsize).insertFailed⟩ := by
  simp only [pipelineCore, pipelineTry, h, ht,
    save_str_never_raises env.saveFails (pyStr (runBody env bsize).finalW)
      env.fs]
  cases hs : env.saveFails <;> simp [hs]

/-! ### C1 -/

/-- C1: the watermark is persisted at most once per run and only after
every batch load has succeeded: a raised insert makes the run abort with
the load error, without calling save_current_watermark, so the persisted
checkpoint is unchanged and the in-memory candidate is discarded. -/
theorem c1_watermark_after_loads (env : Env) :
    (execute_etl_pipeline env).saveCalls ≤ 1
    ∧ ((execute_etl_pipeline env).insertFailed = true →
        (execute_etl_pipeline env).outcome = .error .loadError
        ∧ (execute_etl_pipeline env).saveCalls = 0
        ∧ (execute_etl_pipeline env).fs = env.fs)
    ∧ ((execute_etl_pipeline env).saveCalls = 1 →
        (execute_etl_pipeline env).outcome = .ok ()
        ∧ (execute_etl_pipeline env).insertFailed = false) := by
  simp only [execute_etl_pipeline]
  cases herr : (runBody env DEFAULT_BATCH_SIZE).err with
  | some e =>
    rw [pipeline_err env DEFAULT_BATCH_SIZE e herr]
    refine ⟨Nat.zero_le 1, fun hif => ?_, fun h1 => absurd h1 (Nat.ne_of_beq_eq_false rfl)⟩
    have h2 := runBody_insertFailed env DEFAULT_BATCH_SIZE hif
    rw [herr] at h2
    cases h2
    exact ⟨rfl, rfl, rfl⟩
  | none =>
    cases htr : pyTruthy (runBody env DEFAULT_BATCH_SIZE).finalW with
    | false =>
      rw [pipeline_ok_falsy env DEFAULT_BATCH_SIZE herr htr]
      refine ⟨Nat.zero_le 1, fun hif => ?_, fun h1 => absurd h1 (Nat.ne_of_beq_eq_false rfl)⟩
      have h2 := runBody_insertFailed env DEFAULT_BATCH_SIZE hif
      rw [herr] at h2
      cases h2
    | true =>
      rw [pipeline_ok_truthy env DEFAULT_BATCH_SIZE herr htr]
      refine ⟨Nat.le_refl 1, fun hif => ?_, fun _ => ⟨rfl, ?_⟩⟩
      · have h2 := runBody_insertFailed env DEFAULT_BATCH_SIZE hif
        rw [herr] at h2
        cases h2
      · cases hval : (runBody env DEFAULT_BATCH_SIZE).insertFailed with
        | false => rfl
        | true =>
          have h2 := runBody_insertFailed env DEFAULT_BATCH_SIZE hval
          rw [herr] at h2
          cases h2

/-- A run whose only (remainder) insert is rejected by the sink. -/
def c1Env : Env :=
  ⟨[⟨9, 9, "s", "a", "b", 9, some 9, some 9⟩], .absent,
    true, true, true, fun _ => true, false⟩

/-- C1 witness: in the concrete failing run the pipeline aborts with the
load error, the checkpoint file is untouched and never written. -/
theorem c1_witness :
    (execute_etl_pipeline c1Env).outcome = .error .loadError
    ∧ (execute_etl_pipeline c1Env).saveCalls = 0
    ∧ (execute_etl_pipeline c1Env).fs = c1Env.fs :=
  (c1_watermark_after_loads c1Env).2.1 rfl

/-! ### C4 (corrected) -/

/-- A one-row run whose checkpoint write raises IOError. -/
def c4Env : Env :=
  ⟨[⟨9, 9, "s", "a", "b", 9, some 9, some 9⟩], .absent,
    true, true, true, fun _ => false, true⟩

/-- C4 counterexample: the watermark write fails with IOError (the error
is logged) and yet execute_etl_pipeline completes as a successful run —
the write failure is not fatal. -/
theorem c4_counterexample_save_failure_not_fatal :
    (execute_etl_pipeline c4Env).saveLoggedError = true
    ∧ (execute_etl_pipeline c4Env).outcome = .ok ()
    ∧ (execute_etl_pipeline c4Env).saveCalls = 1 := ⟨rfl, rfl, rfl⟩

/-- C4 amended: a failing checkpoint write is caught inside
save_current_watermark, logged at error level and swallowed; the run
completes successfully and the previously persisted checkpoint file is
left as it was. -/
theorem c4_save_failure_swallowed (env : Env) (h : env.saveFails = true) :
    (execute_etl_pipeline env).fs = env.fs
    ∧ ((execute_etl_pipeline env).saveCalls = 1 →
        (execute_etl_pipeline env).outcome = .ok ()
        ∧ (execute_etl_pipeline env).saveLoggedError = true) := by
  simp only [execute_etl_pipeline]
  cases herr : (runBody env DEFAULT_BATCH_SIZE).err with
  | some e =>
    rw [pipeline_err env DEFAULT_BATCH_SIZE e herr]
    exact ⟨rfl, fun h1 => absurd h1 (Nat.ne_of_beq_eq_false rfl)⟩
  | none =>
    cases htr : pyTruthy (runBody env DEFAULT_BATCH_SIZE).finalW with
    | false =>
      rw [pipeline_ok_falsy env DEFAULT_BATCH_SIZE herr htr]
      exact ⟨rfl, fun h1 => absurd h1 (Nat.ne_of_beq_eq_false rfl)⟩
    | true =>
      rw [pipeline_ok_truthy env DEFAULT_BATCH_SIZE herr htr]
      exact ⟨by simp [h], fun _ => ⟨rfl, h⟩⟩

/-- C4 witness for the amended claim at the concrete run. -/
theorem c4_witness :
    (execute_etl_pipeline c4Env).fs = c4Env.fs
    ∧ (execute_etl_pipeline c4Env).outcome = .ok ()
    ∧ (execute_etl_pipeline c4Env).saveLoggedError = true :=
  ⟨(c4_save_failure_swallowed c4Env rfl).1,
    ((c4_save_failure_swallowed c4Env rfl).2 rfl).1,
    ((c4_save_failure_swallowed c4Env rfl).2 rfl).2⟩

/-! ### C7 (corrected) -/

/-- An empty source with a prior checkpoint. -/
def c7Env : Env :=
  ⟨[], savedFile (dtStr 7), true, true, true, fun _ => false, false⟩

/-- An empty source with no prior checkpoint. -/
def c7aEnv : Env := ⟨[], .absent, true, true, true, fun _ => false, false⟩

/-- C7 counterexample: with an empty source and a prior checkpoint the
pipeline processes zero records yet still calls save_current_watermark,
writing the checkpoint store once — the candidate is persisted although
no record was processed. -/
theorem c7_counterexample_empty_run_writes :
    (execute_etl_pipeline c7Env).total = 0
    ∧ (execute_etl_pipeline c7Env).saveCalls = 1 := ⟨rfl, rfl⟩

/-- C7 amended: with an empty source and no prior checkpoint there are
zero sink writes and the checkpoint remains absent; with an empty source
and a prior stored checkpoint there are still zero sink writes and the
stored value is unchanged, but the file is rewritten once (one save call
re-persisting the loaded watermark text). -/
theorem c7_empty_run (env : Env) (w : Nat)
    (hpg : env.pgConnOk = true) (hch : env.chConnOk = true)
    (hddl : env.ddlOk = true) (hsf : env.saveFails = false) :
    (env.fs = .absent → query env.rows Option.none = [] →
      (execute_etl_pipeline env).saveCalls = 0
      ∧ (execute_etl_pipeline env).sink = []
      ∧ (execute_etl_pipeline env).total = 0
      ∧ (execute_etl_pipeline env).fs = .absent
      ∧ (execute_etl_pipeline env).outcome = .ok ())
    ∧ (env.fs = savedFile (dtStr w) → query env.rows (some w) = [] →
      (execute_etl_pipeline env).saveCalls = 1
      ∧ (execute_etl_pipeline env).sink = []
      ∧ (execute_etl_pipeline env).total = 0
      ∧ (execute_etl_pipeline env).fs = env.fs
      ∧ (execute_etl_pipeline env).outcome = .ok ()) := by
  constructor
  · intro hfs hq
    have hload : load_last_watermark env.fs = .ok (.none, false) := by
      rw [hfs]
      rfl
    have hfetch : fetch_postgres_data env.rows PyVal.none
        DEFAULT_BATCH_SIZE = .ok [] := by
      rw [fetch_none, hq, pages_nil]
    have hrb : runBody env DEFAULT_BATCH_SIZE =
        ⟨Option.none, [], 0, PyVal.none, false, true, true, false⟩ := by
      rw [runBody_main env DEFAULT_BATCH_SIZE PyVal.none false []
        hpg hch hddl hload hfetch]
      rfl
    have herr : (runBody env DEFAULT_BATCH_SIZE).err = Option.none := by
      rw [hrb]
    have htr : pyTruthy (runBody env DEFAULT_BATCH_SIZE).finalW = false := by
      rw [hrb]
      rfl
    simp only [execute_etl_pipeline]
    rw [pipeline_ok_falsy env DEFAULT_BATCH_SIZE herr htr, hrb]
    exact ⟨rfl, rfl, rfl, hfs, rfl⟩
  · intro hfs hq
    have hload : load_last_watermark env.fs =
        .ok (.str (dtStr w), false) := by
      rw [hfs]
      exact load_savedFile _
    have hfetch : fetch_postgres_data env.rows (.str (dtStr w))
        DEFAULT_BATCH_SIZE = .ok [] := by
      rw [fetch_dtStr, hq, pages_nil]
    have hrb : runBody env DEFAULT_BATCH_SIZE =
        ⟨Option.none, [], 0, .str (dtStr w), false, true, true, false⟩ := by
      rw [runBody_main env DEFAULT_BATCH_SIZE (.str (dtStr w)) false []
        hpg hch hddl hload hfetch]
      rfl
    have herr : (runBody env DEFAULT_BATCH_SIZE).err = Option.none := by
      rw [hrb]
    have htr : pyTruthy (runBody env DEFAULT_BATCH_SIZE).finalW = true := by
      rw [hrb]
      exact pyTruthy_dtStr w
    simp only [execute_etl_pipeline]
    rw [pipeline_ok_truthy env DEFAULT_BATCH_SIZE herr htr, hrb]
    refine ⟨rfl, rfl, rfl, ?_, rfl⟩
    rw [hsf, hfs]
    rfl

/-- C7 witness for the amended claim: both empty-run situations at
concrete inputs. -/
theorem c7_witness :
    ((execute_etl_pipeline c7aEnv).saveCalls = 0
      ∧ (execute_etl_pipeline c7aEnv).fs = .absent)
    ∧ ((execute_etl_pipeline c7Env).saveCalls = 1
      ∧ (execute_etl_pipeline c7Env).fs = c7Env.fs) := by
  have ha := (c7_empty_run c7aEnv 0 rfl rfl rfl rfl).1 rfl rfl
  have hb := (c7_empty_run c7Env 7 rfl rfl rfl rfl).2 rfl rfl
  exact ⟨⟨ha.1, ha.2.2.2.1⟩, hb.1, hb.2.2.2.1⟩

/-! ### C3 -/

theorem updateWatermark_str (m : Nat) (s : String) (h : s ≠ "") :
    updateWatermark m (.str s) = .error .typeError := by
  unfold updateWatermark
  simp [pyTruthy, h, pyGtDt]

/-- C3: with a stored (truthy) checkpoint and a non-empty extraction, the
candidate-watermark update compares a datetime against the loaded string
with the greater-than operator, which raises TypeError and aborts the run
before any insert and before any watermark save. -/
theorem c3_string_watermark_comparison_raises (env : Env) (w : Nat)
    (hfs : env.fs = savedFile (dtStr w))
    (hpg : env.pgConnOk = true) (hch : env.chConnOk = true)
    (hddl : env.ddlOk = true)
    (hne : query env.rows (some w) ≠ []) :
    (execute_etl_pipeline env).outcome = .error .typeError
    ∧ (execute_etl_pipeline env).saveCalls = 0
    ∧ (execute_etl_pipeline env).fs = env.fs
    ∧ (execute_etl_pipeline env).sink = []
    ∧ (execute_etl_pipeline env).total = 0 := by
  have hload : load_last_watermark env.fs =
      .ok (.str (dtStr w), false) := by
    rw [hfs]
    exact load_savedFile _
  have hfetch : fetch_postgres_data env.rows (.str (dtStr w))
      DEFAULT_BATCH_SIZE =
      .ok (pages DEFAULT_BATCH_SIZE (query env.rows (some w))) :=
    fetch_dtStr env.rows w DEFAULT_BATCH_SIZE
  obtain ⟨cs, hpages⟩ :=
    pages_cons DEFAULT_BATCH_SIZE (query env.rows (some w)) (by decide) hne
  have hcne : (query env.rows (some w)).take DEFAULT_BATCH_SIZE ≠ [] := by
    rw [Ne, List.take_eq_nil_iff]
    rintro (h | h)
    · cases h
    · exact hne h
  have hhead := List.head_mem hcne
  obtain ⟨t, ht, -⟩ := mem_query_some_updated env.rows w _
    (List.take_subset _ _ hhead)
  obtain ⟨m, hbm⟩ := batchMax_ok_of_mem _ _ _ hhead ht
  have hupd : updateWatermark m
      ((⟨[], 0, .str (dtStr w), 0, [], false⟩ : LoopState).curW) =
      .error .typeError := updateWatermark_str m _ (dtStr_ne_empty w)
  have hrb : runBody env DEFAULT_BATCH_SIZE =
      ⟨some .typeError, [], 0, .str (dtStr w), false, true, true,
        false⟩ := by
    rw [runBody_main env DEFAULT_BATCH_SIZE (.str (dtStr w)) false
        (pages DEFAULT_BATCH_SIZE (query env.rows (some w)))
        hpg hch hddl hload hfetch,
      hpages,
      loopGo_cons_upErr env DEFAULT_BATCH_SIZE _ cs
        ⟨[], 0, .str (dtStr w), 0, [], false⟩ m .typeError hbm hupd]
  have herr : (runBody env DEFAULT_BATCH_SIZE).err = some .typeError := by
    rw [hrb]
  simp only [execute_etl_pipeline]
  rw [pipeline_err env DEFAULT_BATCH_SIZE .typeError herr, hrb]
  exact ⟨rfl, rfl, rfl, rfl, rfl⟩

/-- The concrete run for C3: stored checkpoint text for instant 3, one
eligible tombstoned row updated at instant 5. -/
def c3Env : Env :=
  ⟨[⟨1, 1, "s", "a", "b", 0, some 5, some 5⟩], savedFile (dtStr 3),
    true, true, true, fun _ => false, false⟩

/-- C3 witness at the concrete run. -/
theorem c3_witness :
    (execute_etl_pipeline c3Env).outcome = .error .typeError
    ∧ (execute_etl_pipeline c3Env).saveCalls = 0 := by
  have h := c3_string_watermark_comparison_raises c3Env 3
    rfl rfl rfl rfl (by decide)
  exact ⟨h.1, h.2.1⟩

/-! ### C6 (corrected) -/

set_option maxRecDepth 40000

/-- A generic well-formed tombstoned row at instant i. -/
def mkRow (i : Nat) : Row := ⟨i, i, "s", "a", "b", i, some i, some i⟩

/-- One hundred tombstoned rows, the one at index 42 with a NULL
updated_at (the malformed-row case observable in this code: psycopg2
hands rows over already typed, so the only representable malformation is
a missing value). -/
def c6Rows : List Row :=
  (List.range 100).map fun i =>
    if i = 42 then ⟨i, i, "s", "a", "b", i, Option.none, some i⟩
    else mkRow i

def c6Env : Env := ⟨c6Rows, .absent, true, true, true, fun _ => false, false⟩

/-- C6 counterexample: with one malformed row among 100, all 100 rows are
delivered to the sink and the run succeeds — no row is skipped, so the
claimed 99-delivered/1-skipped behavior does not hold. -/
theorem c6_counterexample_no_row_skipping :
    (execute_etl_pipeline c6Env).total = 100
    ∧ (execute_etl_pipeline c6Env).outcome = .ok () := ⟨rfl, rfl⟩

/-- C6 amended: a row with an unparseable (NULL) updated_at is not
skipped and produces no warning: the sink receives exactly the full
fetched result set (all 100 rows, the malformed one included) and the
run continues; the row is excluded only from the candidate-watermark
computation, so the final checkpoint is the maximum updated_at among the
99 well-formed rows. -/
theorem c6_malformed_row_delivered_not_skipped :
    (execute_etl_pipeline c6Env).sink = [query c6Env.rows Option.none]
    ∧ (execute_etl_pipeline c6Env).total = 100
    ∧ (execute_etl_pipeline c6Env).fs = savedFile (dtStr 99)
    ∧ (execute_etl_pipeline c6Env).outcome = .ok () := ⟨rfl, rfl, rfl, rfl⟩

/-! ### C9 support: rows at consecutive instants, page arithmetic -/

/-- The rows with instants a, a+1, ..., a+n-1, all tombstoned. -/
def segRows (a n : Nat) : List Row := (List.range' a n).map mkRow

/-- The q flushed full batches starting at instant a. -/
def fullSegs : Nat → Nat → List (List Row)
  | _, 0 => []
  | a, q + 1 => segRows a 5000 :: fullSegs (a + 5000) q

theorem length_segRows (a n : Nat) : (segRows a n).length = n := by
  simp [segRows]

theorem segRows_zero (a : Nat) : segRows a 0 = [] := rfl

theorem segRows_ne_nil (a n : Nat) (h : n ≠ 0) : segRows a n ≠ [] := by
  intro he
  exact h (by rw [← length_segRows a n, he]; rfl)

theorem range'_take : ∀ n a m,
    (List.range' a n).take m = List.range' a (min m n) := by
  intro n
  induction n with
  | zero => intro a m; simp
  | succ n ih =>
    intro a m
    rw [List.range'_succ]
    cases m with
    | zero => simp
    | succ m =>
      rw [List.take_succ_cons, ih, Nat.succ_min_succ, List.range'_succ]

theorem range'_drop : ∀ n a m,
    (List.range' a n).drop m = List.range' (a + m) (n - m) := by
  intro n
  induction n with
  | zero => intro a m; simp
  | succ n ih =>
    intro a m
    rw [List.range'_succ]
    cases m with
    | zero => simp [List.range'_succ]
    | succ m =>
      rw [List.drop_succ_cons, ih]
      congr 1
      all_goals omega

theorem take_segRows (a n m : Nat) :
    (segRows a n).take m = segRows a (min m n) := by
  unfold segRows
  rw [← List.map_take, range'_take]

theorem drop_segRows (a n m : Nat) :
    (segRows a n).drop m = segRows (a + m) (n - m) := by
  unfold segRows
  rw [← List.map_drop, range'_drop]

theorem filterMap_upd_map : ∀ l : List Nat,
    ((l.map mkRow).filterMap fun r => r.updated_at) = l := by
  intro l
  induction l with
  | nil => rfl
  | cons x xs ih => simp [mkRow, List.filterMap_cons, ih]

theorem foldl_max_range' : ∀ n a init,
    List.foldl Nat.max init (List.range' a (n + 1)) = Nat.max init (a + n) := by
  intro n
  induction n with
  | zero => intro a init; rfl
  | succ n ih =>
    intro a init
    rw [List.range'_succ, List.foldl_cons, ih]
    simp only [Nat.max_def]
    split_ifs <;> omega

theorem batchMax_segRows (a n : Nat) :
    batchMax (segRows a (n + 1)) = .ok (a + n) := by
  unfold batchMax
  rw [show segRows a (n+1) = (List.range' a (n+1)).map mkRow from rfl,
    filterMap_upd_map, List.range'_succ]
  cases n with
  | zero => rfl
  | succ n =>
    show Except.ok (List.foldl Nat.max a (List.range' (a + 1) (n + 1))) =
      Except.ok (a + (n + 1))
    rw [foldl_max_range']
    have hmax : Nat.max a (a + 1 + n) = a + (n + 1) := by
      simp only [Nat.max_def]
      split_ifs <;> omega
    rw [hmax]

theorem updateWatermark_none (m : Nat) :
    updateWatermark m PyVal.none = .ok (.dt m) := rfl

theorem updateWatermark_dt_lt (m u : Nat) (h : u < m) :
    updateWatermark m (.dt u) = .ok (.dt m) := by
  unfold updateWatermark pyGtDt
  simp [pyTruthy, h]

theorem insert_ok_of (f : Bool) (b : List Row) (hb : b ≠ [])
    (hf : f = false) : insert_to_clickhouse f b = .ok true := by
  unfold insert_to_clickhouse
  rw [hf]
  simp [hb]

/-- The batching loop on the pages of segRows: with inserts succeeding,
q = n / 5000 full batches are flushed in order and the remainder n % 5000
rows stay in the buffer; the candidate watermark ends at the maximum
instant. -/
theorem loopGo_segRows (env : Env) (hIns : ∀ k, env.insertFails k = false) :
    ∀ n fuel a curW total idx sink insertF,
      n ≤ fuel →
      (curW = PyVal.none ∨ ∃ m, curW = PyVal.dt m ∧ m < a) →
      loopGo env 5000 (pagesGo 5000 fuel (segRows a n))
          ⟨[], total, curW, idx, sink, insertF⟩ =
        (⟨segRows (a + 5000 * (n / 5000)) (n % 5000),
          total + 5000 * (n / 5000),
          (if n = 0 then curW else PyVal.dt (a + n - 1)),
          idx + n / 5000,
          sink ++ fullSegs a (n / 5000),
          insertF⟩, Option.none) := by
  intro n
  induction n using Nat.strong_induction_on with
  | _ n ih =>
    intro fuel a curW total idx sink insertF hfuel hcur
    rcases Nat.eq_zero_or_pos n with hn0 | hnpos
    · subst hn0
      rw [segRows_zero, pagesGo_nil]
      simp only [loopGo]
      simp [segRows_zero, fullSegs]
    · have hfne : segRows a n ≠ [] := segRows_ne_nil a n (by omega)
      obtain ⟨fuel2, rfl⟩ : ∃ f, fuel = f + 1 := ⟨fuel - 1, by omega⟩
      have hstep : pagesGo 5000 (fuel2 + 1) (segRows a n) =
          (segRows a n).take 5000 ::
            pagesGo 5000 fuel2 ((segRows a n).drop 5000) := by
        cases hsr : segRows a n with
        | nil => exact absurd hsr hfne
        | cons x xs => rfl
      rw [hstep, take_segRows, drop_segRows]
      obtain ⟨k, hkeq⟩ : ∃ k, min 5000 n = k + 1 :=
        ⟨min 5000 n - 1, by omega⟩
      rw [hkeq]
      have hbm : batchMax (segRows a (k + 1)) = .ok (a + k) :=
        batchMax_segRows a k
      have hupd : updateWatermark (a + k) curW = .ok (.dt (a + k)) := by
        rcases hcur with hc | ⟨m, hc, hm⟩
        · rw [hc]; exact updateWatermark_none _
        · rw [hc]; exact updateWatermark_dt_lt _ m (by omega)
      by_cases hBn : 5000 ≤ n
      · have hk5 : k + 1 = 5000 := by omega
        have hlen : 5000 ≤ (([] : List Row) ++ segRows a (k + 1)).length := by
          simp [length_segRows]
          omega
        have hins : insert_to_clickhouse (env.insertFails idx)
            (([] : List Row) ++ segRows a (k + 1)) = .ok true := by
          rw [List.nil_append]
          exact insert_ok_of _ _ (segRows_ne_nil _ _ (by omega)) (hIns idx)
        rw [loopGo_cons_flush env 5000 (segRows a (k + 1))
          (pagesGo 5000 fuel2 (segRows (a + 5000) (n - 5000)))
          ⟨[], total, curW, idx, sink, insertF⟩ (a + k) (.dt (a + k))
          hbm hupd hlen hins]
        simp only [List.nil_append, length_segRows]
        rw [ih (n - 5000) (by omega) fuel2 (a + 5000) (.dt (a + k))
          (total + (k + 1)) (idx + 1) (sink ++ [segRows a (k + 1)]) insertF
          (by omega) (Or.inr ⟨a + k, rfl, by omega⟩)]
        have e1 : a + 5000 + 5000 * ((n - 5000) / 5000) =
            a + 5000 * (n / 5000) := by omega
        have e2 : (n - 5000) % 5000 = n % 5000 := by omega
        have e3 : total + (k + 1) + 5000 * ((n - 5000) / 5000) =
            total + 5000 * (n / 5000) := by omega
        have e4 : idx + 1 + (n - 5000) / 5000 = idx + n / 5000 := by omega
        have ecw : (if n - 5000 = 0 then PyVal.dt (a + k)
            else PyVal.dt (a + 5000 + (n - 5000) - 1)) =
            (if n = 0 then curW else PyVal.dt (a + n - 1)) := by
          rw [if_neg (by omega : ¬ n = 0)]
          by_cases hz : n - 5000 = 0
          · rw [if_pos hz]
            exact congrArg PyVal.dt (by omega)
          · rw [if_neg hz]
            exact congrArg PyVal.dt (by omega)
        have esink : sink ++ [segRows a (k + 1)] ++
            fullSegs (a + 5000) ((n - 5000) / 5000) =
            sink ++ fullSegs a (n / 5000) := by
          rw [show n / 5000 = (n - 5000) / 5000 + 1 from by omega, hk5]
          rw [List.append_assoc]
          rfl
        rw [e1, e2, e3, e4, ecw, esink]
      · have hkn : k + 1 = n := by omega
        have hlen : ¬ 5000 ≤ (([] : List Row) ++ segRows a (k + 1)).length := by
          simp [length_segRows]
          omega
        rw [loopGo_cons_keep env 5000 (segRows a (k + 1))
          (pagesGo 5000 fuel2 (segRows (a + 5000) (n - 5000)))
          ⟨[], total, curW, idx, sink, insertF⟩ (a + k) (.dt (a + k))
          hbm hupd hlen]
        rw [show n - 5000 = 0 from by omega, segRows_zero, pagesGo_nil]
        simp only [loopGo, List.nil_append]
        rw [show n / 5000 = 0 from by omega,
          show n % 5000 = n from by omega]
        simp only [Nat.mul_zero, Nat.add_zero, fullSegs, List.append_nil]
        rw [if_neg (by omega : ¬ n = 0), hkn,
          show a + n - 1 = a + k from by omega]

/-- On these rows the extraction query is the identity: everything is
tombstoned and the updated_at order is already ascending. -/
theorem query_segRows (a n : Nat) :
    query (segRows a n) Option.none = segRows a n := by
  unfold query
  have hf : (segRows a n).filter (rowSelected Option.none) = segRows a n := by
    rw [List.filter_eq_self]
    intro r hr
    rw [rowSelected_none]
    obtain ⟨i, -, rfl⟩ := List.mem_map.mp hr
    rfl
  rw [hf]
  apply List.Sorted.insertionSort_eq
  apply List.pairwise_map.mpr
  apply (List.pairwise_lt_range' a n 1 Nat.one_pos).imp
  intro i j h
  exact Nat.le_of_lt h

/-- The shape fetchmany paging guarantees: every page is at most the page
size, and only the last page may be smaller. -/
def ChunkShape (bsize : Nat) : List (List Row) → Prop
  | [] => True
  | c :: rest =>
    c.length ≤ bsize ∧ (rest = [] ∨ c.length = bsize) ∧ ChunkShape bsize rest

theorem pagesGo_shape (b : Nat) (hb : b ≠ 0) :
    ∀ fuel rs, rs.length ≤ fuel → ChunkShape b (pagesGo b fuel rs) := by
  intro fuel
  induction fuel with
  | zero =>
    intro rs h
    have hrs : rs = [] := List.length_eq_zero.mp (Nat.le_zero.mp h)
    subst hrs
    rw [pagesGo_nil]
    trivial
  | succ fuel ih =>
    intro rs h
    cases rs with
    | nil => rw [pagesGo_nil]; trivial
    | cons x xs =>
      rw [pagesGo_cons]
      refine ⟨?_, ?_, ih _ ?_⟩
      · rw [List.length_take]
        exact min_le_left _ _
      · by_cases hxb : (x :: xs).length ≤ b
        · left
          rw [List.drop_eq_nil_of_le hxb, pagesGo_nil]
        · right
          rw [List.length_take]
          exact min_eq_left (by omega)
      · rw [List.length_drop]
        simp only [List.length_cons] at h ⊢
        omega

/-- Every batch the loop delivers respects the threshold, and the final
buffer does as well. -/
theorem loopGo_sizes (env : Env) (bsize : Nat) :
    ∀ cs st, ChunkShape bsize cs → st.buffer = [] →
      (∀ b ∈ st.sink, b.length ≤ bsize) →
      (∀ b ∈ (loopGo env bsize cs st).1.sink, b.length ≤ bsize)
      ∧ (loopGo env bsize cs st).1.buffer.length ≤ bsize := by
  intro cs
  induction cs with
  | nil =>
    intro st _ hbuf hsink
    refine ⟨hsink, ?_⟩
    show st.buffer.length ≤ bsize
    rw [hbuf]
    exact Nat.zero_le _
  | cons c rest ih =>
    intro st hshape hbuf hsink
    obtain ⟨hc1, hc2, hc3⟩ := hshape
    have hbc : (st.buffer ++ c).length ≤ bsize := by
      rw [hbuf]
      simpa using hc1
    cases hbm : batchMax c with
    | error e =>
      rw [loopGo_cons_bmErr env bsize c rest st e hbm]
      exact ⟨hsink, hbc⟩
    | ok bmax =>
      cases hup : updateWatermark bmax st.curW with
      | error e =>
        rw [loopGo_cons_upErr env bsize c rest st bmax e hbm hup]
        exact ⟨hsink, hbc⟩
      | ok curW =>
        by_cases hlen : bsize ≤ (st.buffer ++ c).length
        · cases hins : insert_to_clickhouse (env.insertFails st.insertIdx)
              (st.buffer ++ c) with
          | error e =>
            rw [loopGo_cons_insErr env bsize c rest st bmax curW e
              hbm hup hlen hins]
            exact ⟨hsink, hbc⟩
          | ok wrote =>
            cases wrote with
            | true =>
              rw [loopGo_cons_flush env bsize c rest st bmax curW
                hbm hup hlen hins]
              apply ih _ hc3 rfl
              intro b hbmem
              rcases List.mem_append.mp hbmem with hmem | hmem
              · exact hsink b hmem
              · have hb2 : b = st.buffer ++ c := List.mem_singleton.mp hmem
                rw [hb2]
                exact hbc
            | false =>
              rw [loopGo_cons_flushEmpty env bsize c rest st bmax curW
                hbm hup hlen hins]
              exact ih _ hc3 rfl hsink
        · rw [loopGo_cons_keep env bsize c rest st bmax curW hbm hup hlen]
          rcases hc2 with hrest | hfull
          · subst hrest
            exact ⟨hsink, hbc⟩
          · exfalso
            apply hlen
            rw [hbuf]
            simp [hfull]

/-- Whatever the watermark argument, a successful fetch returns pages of
a query result. -/
theorem fetch_ok_pages (rows : List Row) (lw : PyVal) (bsize : Nat)
    (chunks : List (List Row))
    (h : fetch_postgres_data rows lw bsize = .ok chunks) :
    ∃ since, chunks = pages bsize (query rows since) := by
  unfold fetch_postgres_data at h
  split at h
  · cases hts : sqlTs lw with
    | ok w =>
      rw [hts] at h
      cases h
      exact ⟨some w, rfl⟩
    | error e =>
      rw [hts] at h
      cases h
  · cases h
    exact ⟨Option.none, rfl⟩

/-- Every batch the body delivers to the sink respects the threshold. -/
theorem runBody_sizes (env : Env) (bsize : Nat) (hb : bsize ≠ 0) :
    ∀ b ∈ (runBody env bsize).sink, b.length ≤ bsize := by
  unfold runBody
  cases hload : load_last_watermark env.fs with
  | error e =>
    intro b hbmem
    exact absurd hbmem (List.not_mem_nil b)
  | ok p =>
    obtain ⟨lw, warned⟩ := p
    by_cases hpg : env.pgConnOk = false
    · simp only [if_pos hpg]
      intro b hbmem
      exact absurd hbmem (List.not_mem_nil b)
    · simp only [if_neg hpg]
      by_cases hch : env.chConnOk = false
      · simp only [if_pos hch]
        intro b hbmem
        exact absurd hbmem (List.not_mem_nil b)
      · simp only [if_neg hch]
        by_cases hddl : env.ddlOk = false
        · simp only [if_pos hddl]
          intro b hbmem
          exact absurd hbmem (List.not_mem_nil b)
        · simp only [if_neg hddl]
          cases hf : fetch_postgres_data env.rows lw bsize with
          | error e =>
            intro b hbmem
            exact absurd hbmem (List.not_mem_nil b)
          | ok chunks =>
            obtain ⟨since, hch2⟩ := fetch_ok_pages env.rows lw bsize chunks hf
            have hshape : ChunkShape bsize chunks := by
              rw [hch2]
              unfold pages
              rw [if_neg hb]
              exact pagesGo_shape bsize hb _ _ (Nat.le_refl _)
            have hsz := loopGo_sizes env bsize chunks
              ⟨[], 0, lw, 0, [], false⟩ hshape rfl
              (fun b hbmem => absurd hbmem (List.not_mem_nil b))
            rcases hl : loopGo env bsize chunks
                ⟨[], 0, lw, 0, [], false⟩ with ⟨st, err⟩
            rw [hl] at hsz
            cases err with
            | some e =>
              simp only [hl]
              exact hsz.1
            | none =>
              simp only [hl]
              by_cases hbuf : st.buffer.isEmpty
              · simp only [if_pos hbuf]
                exact hsz.1
              · simp only [if_neg hbuf]
                cases hins : insert_to_clickhouse
                    (env.insertFails st.insertIdx) st.buffer with
                | error e =>
                  simp only [hins]
                  exact hsz.1
                | ok wrote =>
                  simp only [hins]
                  intro b hbmem
                  rcases List.mem_append.mp hbmem with hmem | hmem
                  · exact hsz.1 b hmem
                  · have hb2 : b = st.buffer := List.mem_singleton.mp hmem
                    rw [hb2]
                    exact hsz.2

/-- Whatever happens, the run result reports exactly the batches the body
delivered. -/
theorem pipeline_sink (env : Env) (bsize : Nat) :
    (pipelineCore env bsize).sink = (runBody env bsize).sink := by
  cases herr : (runBody env bsize).err with
  | some e => rw [pipeline_err env bsize e herr]
  | none =>
    cases htr : pyTruthy (runBody env bsize).finalW with
    | false => rw [pipeline_ok_falsy env bsize herr htr]
    | true => rw [pipeline_ok_truthy env bsize herr htr]

/-! ### C9 -/

/-- Scenario B rows: 12,000 eligible tombstoned records at consecutive
instants, prior checkpoint absent. -/
def c9Env : Env :=
  ⟨segRows 0 12000, .absent, true, true, true, fun _ => false, false⟩

/-- The body when the loop ends cleanly and the remainder buffer is
flushed successfully. -/
theorem runBody_main_remainder (env : Env) (bsize : Nat) (lw : PyVal)
    (warned : Bool) (chunks : List (List Row)) (st : LoopState)
    (hpg : env.pgConnOk = true) (hch : env.chConnOk = true)
    (hddl : env.ddlOk = true)
    (hload : load_last_watermark env.fs = .ok (lw, warned))
    (hfetch : fetch_postgres_data env.rows lw bsize = .ok chunks)
    (hloop : loopGo env bsize chunks ⟨[], 0, lw, 0, [], false⟩ =
      (st, Option.none))
    (hbuf : st.buffer.isEmpty = false)
    (hins : insert_to_clickhouse (env.insertFails st.insertIdx)
      st.buffer = .ok true) :
    runBody env bsize =
      ⟨Option.none, st.sink ++ [st.buffer], st.total + st.buffer.length,
        st.curW, warned, true, true, st.insertFailed⟩ := by
  rw [runBody_main env bsize lw warned chunks hpg hch hddl hload hfetch,
    hloop]
  simp only [hbuf, Bool.false_eq_true, if_false, hins]

theorem c9_runBody :
    runBody c9Env DEFAULT_BATCH_SIZE =
      ⟨Option.none, fullSegs 0 2 ++ [segRows 10000 2000], 12000,
        .dt 11999, false, true, true, false⟩ := by
  have hq : pages DEFAULT_BATCH_SIZE (query c9Env.rows Option.none) =
      pagesGo 5000 12000 (segRows 0 12000) := by
    show pages 5000 (query (segRows 0 12000) Option.none) = _
    rw [query_segRows]
    unfold pages
    rw [if_neg (by decide), length_segRows]
  have hfetch : fetch_postgres_data c9Env.rows PyVal.none
      DEFAULT_BATCH_SIZE = .ok (pagesGo 5000 12000 (segRows 0 12000)) := by
    rw [fetch_none, hq]
  have hloop := loopGo_segRows c9Env (fun k => rfl) 12000 12000 0
    PyVal.none 0 0 [] false (Nat.le_refl _) (Or.inl rfl)
  rw [show (12000 : Nat) / 5000 = 2 from by norm_num,
    show (12000 : Nat) % 5000 = 2000 from by norm_num,
    if_neg (by norm_num : ¬ (12000 : Nat) = 0)] at hloop
  norm_num at hloop
  have hne : segRows 10000 2000 ≠ [] := segRows_ne_nil _ _ (by norm_num)
  have hemp : (segRows 10000 2000).isEmpty = false := by
    cases hie : (segRows 10000 2000).isEmpty
    · rfl
    · exact absurd (List.isEmpty_iff.mp hie) hne
  rw [runBody_main_remainder c9Env DEFAULT_BATCH_SIZE PyVal.none false
    (pagesGo 5000 12000 (segRows 0 12000))
    ⟨segRows 10000 2000, 10000, .dt 11999, 2, fullSegs 0 2, false⟩
    rfl rfl rfl rfl hfetch (by rw [show DEFAULT_BATCH_SIZE = 5000 from rfl]; exact hloop)
    hemp (insert_ok_of _ _ hne rfl)]
  rw [length_segRows]

/-- C9: batches respect the configured threshold (every delivered batch
is at most DEFAULT_BATCH_SIZE rows, only the last being smaller), and in
particular 12,000 eligible records with batch size 5000 yield exactly
three loads of sizes 5000, 5000 and 2000, with the final checkpoint the
maximum updated_at among the 12,000 records. -/
theorem c9_batch_threshold_and_remainder :
    (∀ env, ∀ b ∈ (execute_etl_pipeline env).sink,
        b.length ≤ DEFAULT_BATCH_SIZE)
    ∧ (execute_etl_pipeline c9Env).sink.map List.length = [5000, 5000, 2000]
    ∧ (execute_etl_pipeline c9Env).total = 12000
    ∧ (execute_etl_pipeline c9Env).fs = savedFile (dtStr 11999)
    ∧ (execute_etl_pipeline c9Env).outcome = .ok ()
    ∧ (c9Env.rows.filterMap fun r => r.updated_at).foldl Nat.max 0 =
        11999 := by
  have herr : (runBody c9Env DEFAULT_BATCH_SIZE).err = Option.none := by
    rw [c9_runBody]
  have htr : pyTruthy (runBody c9Env DEFAULT_BATCH_SIZE).finalW = true := by
    rw [c9_runBody]
    rfl
  refine ⟨?_, ?_, ?_, ?_, ?_, ?_⟩
  · intro env b hbmem
    simp only [execute_etl_pipeline, pipeline_sink env DEFAULT_BATCH_SIZE]
      at hbmem
    exact runBody_sizes env DEFAULT_BATCH_SIZE (by decide) b hbmem
  · simp only [execute_etl_pipeline]
    rw [pipeline_ok_truthy c9Env DEFAULT_BATCH_SIZE herr htr, c9_runBody]
    rw [show fullSegs 0 2 = [segRows 0 5000, segRows 5000 5000] from rfl]
    simp [length_segRows]
  · simp only [execute_etl_pipeline]
    rw [pipeline_ok_truthy c9Env DEFAULT_BATCH_SIZE herr htr, c9_runBody]
  · simp only [execute_etl_pipeline]
    rw [pipeline_ok_truthy c9Env DEFAULT_BATCH_SIZE herr htr, c9_runBody]
    rfl
  · simp only [execute_etl_pipeline]
    rw [pipeline_ok_truthy c9Env DEFAULT_BATCH_SIZE herr htr]
  · show ((segRows 0 12000).filterMap fun r => r.updated_at).foldl
      Nat.max 0 = 11999
    unfold segRows
    rw [filterMap_upd_map,
      show (12000 : Nat) = 11999 + 1 from by norm_num,
      foldl_max_range']
    simp [Nat.max_def]

/-- A one-row run for the C9 witness. -/
def c9wEnv : Env :=
  ⟨[mkRow 0], .absent, true, true, true, fun _ => false, false⟩

/-- C9 witness: the single delivered remainder batch of a one-row run is
within the threshold. -/
theorem c9_witness : ([mkRow 0] : List Row).length ≤ DEFAULT_BATCH_SIZE :=
  c9_batch_threshold_and_remainder.1 c9wEnv [mkRow 0] (by decide)

end Etl
